import Mathlib

/-!
Verification of the `rave` lexer engine (`src/lexer.rs`, `src/lexer/tokens.rs`,
`src/error.rs`) against its natural-language specification.

Embedding conventions:
* The input text is modelled as a `List Char`, and all offsets, spans and
  consumed counts are character counts.  On ASCII input (every input appearing
  in the specification's scenarios and in the counterexamples below) a
  character count coincides with Rust's byte count, so spans and offsets agree
  with the source exactly.
* Rust's `char::is_whitespace`, `char::is_alphabetic`, `char::is_ascii_digit`
  and `char::is_ascii_hexdigit` are modelled by `Char.isWhitespace`,
  `Char.isAlpha`, `Char.isDigit` and `isAsciiHexDigit`; these agree with the
  Rust classifiers on the ASCII range.
* A returned `Option (Except Error _)` mirrors Rust's
  `Option<Result<_, Error>>`; a panic (failed assertion, deque capacity
  exhaustion) is modelled by the dedicated `LexResult.fatal` outcome.
* Every leaf token type in `src/lexer/tokens.rs` stores exactly a
  `Range<usize>` span, so a type-erased `TokenBox` in the lookahead buffer is
  modelled as a span tagged with the `TypeId` of the stored leaf type
  (`TokenKind`).
-/

set_option maxHeartbeats 1000000

namespace Rave

/-- The error type of `src/error.rs` (`Error::UnexpectedToken`): the
unexpected substring together with a description of what was expected. -/
structure Error where
  unexpected : List Char
  expected : List Char
deriving DecidableEq

deriving instance DecidableEq for Except

/-- Identity of a concrete leaf token type: one constructor per leaf defined
in `src/lexer/tokens.rs` (this plays the role of the Rust `TypeId` of the
token struct). -/
inductive TokenKind where
  | plus | minus | star | slash | percent
  | plusEqual | minusEqual | starEqual | slashEqual | percentEqual
  | equalEqual | bangEqual | lessEqual | greaterEqual
  | andAnd | orOr
  | bang | colonEqual | less | greater
  | semicolon | comma | dot | colon
  | leftParen | rightParen | leftBrace | rightBrace | leftBracket | rightBracket
  | ident | number
deriving DecidableEq

/-- The shape every successful parse in `src/lexer/tokens.rs` returns:
`Some(Ok((Self(start..start+consumed), consumed)))`, i.e. the token's span
together with the consumed count as the second tuple component. -/
def tokOk (s consumed : Nat) : Option (Except Error ((Nat × Nat) × Nat)) :=
  some (.ok ((s, s + consumed), consumed))

/-- Model of `str::strip_prefix` for the literal pattern `p` (as used by the
`simple_token!` macro): strip `p` from the front of `input` if it is there. -/
def stripLit (p input : List Char) : Option (List Char) :=
  if input.take p.length = p then some (input.drop p.length) else none

/-- The parse function generated by the `simple_token!` macro in
`src/lexer/tokens.rs`: strip the literal pattern, and on success return the
token spanning `start..start+consumed` plus the consumed count
(`input.len() - new.len()`). -/
def simpleParse (p : List Char) (s : Nat) (input : List Char) :
    Option (Except Error ((Nat × Nat) × Nat)) :=
  match stripLit p input with
  | some remaining => tokOk s (input.length - remaining.length)
  | none => none

/-- Rust's `char::is_ascii_hexdigit`. -/
def isAsciiHexDigit (c : Char) : Bool :=
  c.isDigit || ('a' ≤ c && c ≤ 'f') || ('A' ≤ c && c ≤ 'F')

/-- `Ident::parse` from `src/lexer/tokens.rs`: strip one alphabetic
character, then the consumed count is that character plus the following run
of alphabetic characters. -/
def identParse (s : Nat) (input : List Char) :
    Option (Except Error ((Nat × Nat) × Nat)) :=
  match input with
  | [] => none
  | c :: rest =>
    if c.isAlpha then tokOk s (1 + (rest.takeWhile Char.isAlpha).length)
    else none

/-- `Number::parse` from `src/lexer/tokens.rs`.  The Rust code matches on
`chars.next()` and evaluates the guards of the first two arms on the same
mutable `Chars` iterator, so a failed guard still consumes one character:
with a leading `'0'`, the first guard consumes the second character (testing
it against `'x'`) and the second guard then consumes the third character
(testing it against `'b'`).  The case split below reproduces exactly that
iterator state in each arm's `consumed` computation. -/
def numberParse (s : Nat) (input : List Char) :
    Option (Except Error ((Nat × Nat) × Nat)) :=
  match input with
  | [] => none
  | c :: rest1 =>
    if c = '0' then
      match rest1 with
      | [] => tokOk s 1
      | x :: rest2 =>
        if x = 'x' then
          tokOk s (2 + (rest2.takeWhile isAsciiHexDigit).length)
        else
          match rest2 with
          | [] => tokOk s 2
          | y :: rest3 =>
            if y = 'b' then
              tokOk s (3 + (rest3.takeWhile fun d => d = '0' || d = '1').length)
            else
              tokOk s (3 + (rest3.takeWhile fun d => d.isDigit || d = '.').length)
    else if c.isDigit then
      tokOk s (1 + (rest1.takeWhile fun d => d.isDigit || d = '.').length)
    else none

/-- `T::parse` dispatched by token kind, with the literal pattern of each
`simple_token!` instantiation from `src/lexer/tokens.rs`.  (`Char.ofNat 123`
and `Char.ofNat 125` are the left and right curly brace characters.) -/
def TokenKind.parse : TokenKind → Nat → List Char → Option (Except Error ((Nat × Nat) × Nat))
  | .plus => simpleParse ['+']
  | .minus => simpleParse ['-']
  | .star => simpleParse ['*']
  | .slash => simpleParse ['/']
  | .percent => simpleParse ['%']
  | .plusEqual => simpleParse ['+', '=']
  | .minusEqual => simpleParse ['-', '=']
  | .starEqual => simpleParse ['*', '=']
  | .slashEqual => simpleParse ['/', '=']
  | .percentEqual => simpleParse ['%', '=']
  | .equalEqual => simpleParse ['=', '=']
  | .bangEqual => simpleParse ['!', '=']
  | .lessEqual => simpleParse ['<', '=']
  | .greaterEqual => simpleParse ['>', '=']
  | .andAnd => simpleParse ['&', '&']
  | .orOr => simpleParse ['|', '|']
  | .bang => simpleParse ['!']
  | .colonEqual => simpleParse [':', '=']
  | .less => simpleParse ['<']
  | .greater => simpleParse ['>']
  | .semicolon => simpleParse [';']
  | .comma => simpleParse [',']
  | .dot => simpleParse ['.']
  | .colon => simpleParse [':']
  | .leftParen => simpleParse ['(']
  | .rightParen => simpleParse [')']
  | .leftBrace => simpleParse [Char.ofNat 123]
  | .rightBrace => simpleParse [Char.ofNat 125]
  | .leftBracket => simpleParse ['[']
  | .rightBracket => simpleParse [']']
  | .ident => identParse
  | .number => numberParse

/-- A buffered `TokenBox` cell: every leaf token's payload is its span, so a
cell is the stored span together with the `TypeId` of the stored leaf type. -/
structure Tok where
  tid : TokenKind
  span : Nat × Nat
deriving DecidableEq

/-- The `Lexer<'a, LOOKAHEAD>` state of `src/lexer.rs`: the remaining input
view `input`, the cursor offset `index`, the lookahead deque `buf` (front
first) and the deque capacity `cap` (the `LOOKAHEAD` const parameter). -/
structure Lexer where
  input : List Char
  index : Nat
  buf : List Tok
  cap : Nat
deriving DecidableEq

/-- Result of one engine operation: `fatal` models a panic (failed
`assert_eq!` or `heapless::Deque` capacity exhaustion), `noMatch` models
`None`, `errored e` models `Some(Err(e))`, and `matched v` models
`Some(Ok(v))`. -/
inductive LexResult (α : Type) where
  | fatal
  | noMatch
  | errored (e : Error)
  | matched (val : α)
deriving DecidableEq

/-- True exactly on the two non-fatal failure outcomes (`None` / `Some(Err)`). -/
def LexResult.quiet : LexResult α → Bool
  | .noMatch => true
  | .errored _ => true
  | _ => false

/-- `Lexer::new`: whole input, cursor at zero, empty buffer. -/
def Lexer.new (cap : Nat) (input : List Char) : Lexer := ⟨input, 0, [], cap⟩

/-- `Lexer::trim`: while the remaining input starts with a whitespace
character, advance the cursor by one and drop the character. -/
def trim : Nat → List Char → Nat × List Char
  | index, c :: rest =>
    if c.isWhitespace then trim (index + 1) rest else (index, c :: rest)
  | index, [] => (index, [])

/-- The parse-and-cache path shared by `Lexer::peek` and `Lexer::peek_n`
(the `match T::parse(self.index, self.input)` block): on `Matched` the code
executes `self.index = token.1` (an assignment, not an increment), then
`self.input = &self.input[self.index..]`, then `self.trim()`, and finally
pushes the new cell onto the back of the deque, panicking if the deque is
full. -/
def Lexer.peekFresh (T : TokenKind) (l : Lexer) : LexResult (Nat × Nat) × Lexer :=
  match T.parse l.index l.input with
  | none => (.noMatch, l)
  | some (Except.error e) => (.errored e, l)
  | some (Except.ok token) =>
    if l.buf.length = l.cap then (.fatal, l)
    else
      (.matched token.1,
        { l with
          index := (trim token.2 (l.input.drop token.2)).1,
          input := (trim token.2 (l.input.drop token.2)).2,
          buf := l.buf ++ [⟨T, token.1⟩] })

/-- `Lexer::peek`: if the buffer is non-empty and its back entry matches
`T`, return a reference to it; otherwise parse at the cursor and cache. -/
def Lexer.peek (T : TokenKind) (l : Lexer) : LexResult (Nat × Nat) × Lexer :=
  match l.buf.getLast? with
  | some b => if b.tid = T then (.matched b.span, l) else l.peekFresh T
  | none => l.peekFresh T

/-- `Lexer::peek_n`: if the buffer holds a matching entry at position `n`,
return it; otherwise `assert_eq!(self.buf.len(), n)` (modelled by `fatal`
when the lengths differ) and then parse and cache as `peek` does. -/
def Lexer.peekN (T : TokenKind) (n : Nat) (l : Lexer) : LexResult (Nat × Nat) × Lexer :=
  match l.buf[n]? with
  | some b =>
    if b.tid = T then (.matched b.span, l)
    else if l.buf.length = n then l.peekFresh T else (.fatal, l)
  | none => if l.buf.length = n then l.peekFresh T else (.fatal, l)

/-- The parse-and-consume path of `Lexer::get`: on `Matched` the code
executes `self.index += val.1`, then `self.input = &self.input[val.1..]`,
then `self.trim()`, and returns the value without buffering it. -/
def Lexer.getFresh (T : TokenKind) (l : Lexer) : LexResult (Nat × Nat) × Lexer :=
  match T.parse l.index l.input with
  | none => (.noMatch, l)
  | some (Except.error e) => (.errored e, l)
  | some (Except.ok val) =>
    (.matched val.1,
      { l with
        index := (trim (l.index + val.2) (l.input.drop val.2)).1,
        input := (trim (l.index + val.2) (l.input.drop val.2)).2 })

/-- `Lexer::get`: the code tests `self.buf.iter().last()` (the BACK of the
deque) against `T`, and on a match pops and downcasts the FRONT entry;
otherwise it parses and consumes at the cursor. -/
def Lexer.get (T : TokenKind) (l : Lexer) : LexResult (Nat × Nat) × Lexer :=
  match l.buf.getLast? with
  | some b =>
    if b.tid = T then
      match l.buf with
      | f :: rest => (.matched f.span, { l with buf := rest })
      | [] => (.noMatch, l)
    else l.getFresh T
  | none => l.getFresh T

/-- Slice `input[a..b]` of a character list. -/
def sliceView (input : List Char) (sp : Nat × Nat) : List Char :=
  (input.drop sp.1).take (sp.2 - sp.1)

/-- `Ident::eval`: `&lexer.input[self.0.clone()]` — it indexes the lexer's
`input` field, which is the remaining-input view, by the token's span. -/
def identEval (sp : Nat × Nat) (l : Lexer) : List Char :=
  sliceView l.input sp

/-- Decimal value of a digit string (helper for `parseUnsigned`). -/
def decDigitsVal (cs : List Char) : Nat :=
  cs.foldl (fun a c => 10 * a + (c.toNat - 48)) 0

/-- Rust's `u64::from_str` as used by `Number::eval`'s
`lexer.input[..].parse().unwrap()`: an optional leading `'+'` followed by one
or more decimal digits; anything else is an error (`none`), which makes the
`unwrap` panic.  (Overflow is not modelled; all inputs considered here are
tiny.) -/
def parseUnsigned (cs : List Char) : Option Nat :=
  match cs with
  | [] => none
  | '+' :: rest =>
    if rest ≠ [] ∧ rest.all Char.isDigit then some (decDigitsVal rest) else none
  | _ => if cs.all Char.isDigit then some (decDigitsVal cs) else none

/-- `Number::eval` with an unsigned integer target type:
`lexer.input[self.0.clone()].parse().unwrap()`; `none` models the panic of
the `unwrap` on a parse error (or of the out-of-range slice). -/
def numberEval (sp : Nat × Nat) (l : Lexer) : Option Nat :=
  parseUnsigned (sliceView l.input sp)

/-- Abstract model of a Rust type's layout and identity as consumed by
`TokenBox`: its `size_of`, its `align_of`, and its `TypeId` (distinct Rust
types have distinct `TypeId`s, so type identity is identity of `tyId`). -/
structure RustType where
  size : Nat
  align : Nat
  tyId : Nat
deriving DecidableEq

/-- The type-erased cell `TokenBox` of `src/lexer.rs`, reduced to its
observable content: the `TypeId` recorded at construction time.  (The 16
payload bytes themselves are never observed except through a checked
downcast to the recorded type.) -/
structure TBox where
  tid : Nat
deriving DecidableEq

/-- `TokenBox::new`: asserts `size_of::<T>() <= 16` and
`align_of::<T>() <= 16` (panic modelled by `none`), then records `T`'s
`TypeId`. -/
def TBox.make (T : RustType) : Option TBox :=
  if T.size ≤ 16 ∧ T.align ≤ 16 then some ⟨T.tyId⟩ else none

/-- `TokenBox::is::<U>`: compares the recorded `TypeId` with `U`'s. -/
def TBox.is (b : TBox) (U : RustType) : Bool :=
  b.tid = U.tyId

/-! ### Theorems about the embedded program -/

/-- C1.  The claim states that whenever the lookahead buffer's front entry was
parsed as `T`, `get::<T>()` removes exactly that front entry and returns it
with the peeked span.  The code instead tests `self.buf.iter().last()` — the
back of the deque — before popping the front.  Concretely, on input `"a +"`
with capacity 2, after `peek::<Ident>()` (front entry is the `Ident` spanning
`0..1`) and `peek_n::<Plus>(1)`, the call `get::<Ident>()` finds the back
entry of type `Plus`, falls through to re-parsing at the exhausted cursor,
returns `None`, and leaves the front `Ident` entry in the buffer. -/
theorem c1_get_tests_back_not_front :
    (Lexer.new 2 ['a', ' ', '+']).peek .ident
        = (.matched (0, 1), ⟨['+'], 2, [⟨.ident, (0, 1)⟩], 2⟩)
  ∧ (Lexer.mk ['+'] 2 [⟨.ident, (0, 1)⟩] 2).peekN .plus 1
        = (.matched (2, 3), ⟨[], 1, [⟨.ident, (0, 1)⟩, ⟨.plus, (2, 3)⟩], 2⟩)
  ∧ ([⟨.ident, (0, 1)⟩, ⟨.plus, (2, 3)⟩] : List Tok).head? = some ⟨.ident, (0, 1)⟩
  ∧ (Lexer.mk [] 1 [⟨.ident, (0, 1)⟩, ⟨.plus, (2, 3)⟩] 2).get .ident
        = (.noMatch, Lexer.mk [] 1 [⟨.ident, (0, 1)⟩, ⟨.plus, (2, 3)⟩] 2) := by
  decide

/-- C2.  The claim states the cursor offset is non-decreasing across any
sequence of `peek`/`peek_n`/`get` calls.  But `peek` executes
`self.index = token.1` — an assignment of the parse's relative consumed
count — where `get` executes `self.index += val.1`.  On input `"a b"`,
`get::<Ident>()` leaves the cursor at 2 (past `"a "`), and the following
`peek::<Ident>()` then sets it to 1: the cursor rewinds. -/
theorem c2_peek_rewinds_cursor :
    ((Lexer.new 1 ['a', ' ', 'b']).get .ident).2.index = 2
  ∧ (((Lexer.new 1 ['a', ' ', 'b']).get .ident).2.peek .ident).2.index = 1
  ∧ ¬(2 ≤ 1) := by
  decide

/-- C4.  On `"a + b == 0x100"` with capacity 1, sequential `get` calls do
yield `Ident`, `Plus`, `Ident`, `EqualEqual`, `Number` with the spans the
claim gives — but the evaluation half of the claim fails on the code:
`Ident::eval` indexes `lexer.input`, the remaining-input view that the `get`
has already advanced past the token, so evaluating `Ident(0..1)` right after
its `get` yields `"+"` (not `"a"`) and evaluating `Ident(4..5)` yields `"x"`
(not `"b"`); and `Number::eval` goes through `FromStr`, which only accepts
decimal digits, so `"0x100"` can never evaluate to 256 (the `unwrap`
panics, modelled by `none`). -/
theorem c4_scenario_evals_diverge :
    (Lexer.new 1 ['a',' ','+',' ','b',' ','=','=',' ','0','x','1','0','0']).get .ident
        = (.matched (0, 1), ⟨['+',' ','b',' ','=','=',' ','0','x','1','0','0'], 2, [], 1⟩)
  ∧ (Lexer.mk ['+',' ','b',' ','=','=',' ','0','x','1','0','0'] 2 [] 1).get .plus
        = (.matched (2, 3), ⟨['b',' ','=','=',' ','0','x','1','0','0'], 4, [], 1⟩)
  ∧ (Lexer.mk ['b',' ','=','=',' ','0','x','1','0','0'] 4 [] 1).get .ident
        = (.matched (4, 5), ⟨['=','=',' ','0','x','1','0','0'], 6, [], 1⟩)
  ∧ (Lexer.mk ['=','=',' ','0','x','1','0','0'] 6 [] 1).get .equalEqual
        = (.matched (6, 8), ⟨['0','x','1','0','0'], 9, [], 1⟩)
  ∧ (Lexer.mk ['0','x','1','0','0'] 9 [] 1).get .number
        = (.matched (9, 14), ⟨[], 14, [], 1⟩)
  ∧ identEval (0, 1) (Lexer.mk ['+',' ','b',' ','=','=',' ','0','x','1','0','0'] 2 [] 1) = ['+']
  ∧ ¬(identEval (0, 1) (Lexer.mk ['+',' ','b',' ','=','=',' ','0','x','1','0','0'] 2 [] 1) = ['a'])
  ∧ identEval (4, 5) (Lexer.mk ['=','=',' ','0','x','1','0','0'] 6 [] 1) = ['x']
  ∧ ¬(identEval (4, 5) (Lexer.mk ['=','=',' ','0','x','1','0','0'] 6 [] 1) = ['b'])
  ∧ numberEval (9, 14) (Lexer.mk [] 14 [] 1) = none
  ∧ parseUnsigned ['0', 'x', '1', '0', '0'] = none
  ∧ ¬(parseUnsigned ['0', 'x', '1', '0', '0'] = some 256) := by
  decide

/-- C6.  The claim states that after the first token of an input of the form
`token whitespace token` is parsed and consumed, the second token's span
contains no whitespace byte.  But `Number::parse` evaluates its match-arm
guards on a single shared `Chars` iterator, so after a leading `'0'` the two
failed guards unconditionally consume the next two characters, whatever they
are.  On input `"a 0 5"`, after `get::<Ident>()` consumes `"a"` and the trim
advances the cursor to 2, `get::<Number>()` returns a token with span
`2..5` — which contains the whitespace byte at offset 3. -/
theorem c6_number_span_swallows_whitespace :
    (Lexer.new 1 ['a', ' ', '0', ' ', '5']).get .ident
        = (.matched (0, 1), ⟨['0', ' ', '5'], 2, [], 1⟩)
  ∧ (Lexer.mk ['0', ' ', '5'] 2 [] 1).get .number
        = (.matched (2, 5), ⟨[], 5, [], 1⟩)
  ∧ (['a', ' ', '0', ' ', '5'] : List Char)[3]? = some ' '
  ∧ (' ').isWhitespace = true ∧ 2 ≤ 3 ∧ 3 < 5 := by
  decide

/-- Any parse result built by `tokOk` spans `start..start+consumed` and
returns the consumed count as its second component. -/
theorem tokOk_spec {s m : Nat} {sp : Nat × Nat} {c : Nat}
    (h : tokOk s m = some (.ok (sp, c))) : sp.1 = s ∧ sp.2 = s + c := by
  simp only [tokOk, Option.some.injEq, Except.ok.injEq, Prod.mk.injEq] at h
  obtain ⟨h1, h2⟩ := h
  subst h1; subst h2
  exact ⟨rfl, rfl⟩

/-- Offset discipline of the `simple_token!` parse functions. -/
theorem simpleParse_spec {p : List Char} {s : Nat} {input : List Char}
    {sp : Nat × Nat} {c : Nat}
    (h : simpleParse p s input = some (.ok (sp, c))) : sp.1 = s ∧ sp.2 = s + c := by
  unfold simpleParse at h
  cases hs : stripLit p input with
  | none => rw [hs] at h; cases h
  | some remaining => rw [hs] at h; exact tokOk_spec h

/-- Offset discipline of `Ident::parse`. -/
theorem identParse_spec {s : Nat} {input : List Char} {sp : Nat × Nat} {c : Nat}
    (h : identParse s input = some (.ok (sp, c))) : sp.1 = s ∧ sp.2 = s + c := by
  unfold identParse at h
  repeat' split at h
  all_goals first | exact tokOk_spec h | cases h

/-- Offset discipline of `Number::parse`. -/
theorem numberParse_spec {s : Nat} {input : List Char} {sp : Nat × Nat} {c : Nat}
    (h : numberParse s input = some (.ok (sp, c))) : sp.1 = s ∧ sp.2 = s + c := by
  unfold numberParse at h
  repeat' split at h
  all_goals first | exact tokOk_spec h | cases h

/-- C3 counterexample.  The claim states `parse`'s `Matched` second component
is the absolute offset `start + consumed`.  `Plus::parse` at start offset 2
on remaining input `"+"` consumes one byte and returns offset 1, whereas
`start + consumed = 3`. -/
theorem c3_offset_not_absolute :
    TokenKind.parse .plus 2 ['+'] = some (.ok ((2, 3), 1)) ∧ ¬((1 : Nat) = 2 + 1) := by
  decide

/-- C3 (amended).  For every leaf token kind, whenever
`parse(start, remaining_input)` returns `Matched`, the returned offset is the
count of consumed bytes relative to `remaining_input` (not the absolute
offset), and the token's span is `start .. start + consumed`; the absolute
offset `start + consumed` is recorded as the span's end. -/
theorem c3_parse_returns_relative_consumed (k : TokenKind) (s : Nat)
    (input : List Char) (sp : Nat × Nat) (c : Nat)
    (h : k.parse s input = some (.ok (sp, c))) : sp.1 = s ∧ sp.2 = s + c := by
  cases k <;> simp only [TokenKind.parse] at h <;>
    first
      | exact simpleParse_spec h
      | exact identParse_spec h
      | exact numberParse_spec h

/-- Witness for C3's amended theorem at `Ident::parse` on `"a"`. -/
theorem c3_parse_returns_relative_consumed_witness :
    TokenKind.parse .ident 0 ['a'] = some (.ok ((0, 1), 1))
  ∧ ((0, 1) : Nat × Nat).1 = 0 ∧ ((0, 1) : Nat × Nat).2 = 0 + 1 :=
  ⟨by decide, c3_parse_returns_relative_consumed .ident 0 ['a'] (0, 1) 1 (by decide)⟩

/-- C8.  `TokenBox::new` fails loudly (asserts) exactly when the stored
type's size or alignment exceeds the fixed 16-byte cell budget; within the
budget it records the type's `TypeId`, and `is::<U>` answers `true` exactly
when `U`'s `TypeId` equals the recorded one (i.e. when `U` is the stored
type, since distinct Rust types have distinct `TypeId`s). -/
theorem c8_tokenbox_budget_and_identity (T : RustType) :
    (TBox.make T = none ↔ 16 < T.size ∨ 16 < T.align)
  ∧ (TBox.make T = some ⟨T.tyId⟩ ↔ T.size ≤ 16 ∧ T.align ≤ 16)
  ∧ ∀ (U : RustType) (b : TBox), TBox.make T = some b →
      (b.is U = true ↔ U.tyId = T.tyId) := by
  refine ⟨?_, ?_, ?_⟩
  · unfold TBox.make
    by_cases hb : T.size ≤ 16 ∧ T.align ≤ 16
    · rw [if_pos hb]
      constructor
      · intro h; cases h
      · intro h; omega
    · rw [if_neg hb]
      constructor
      · intro _; omega
      · intro _; rfl
  · unfold TBox.make
    by_cases hb : T.size ≤ 16 ∧ T.align ≤ 16
    · rw [if_pos hb]; exact ⟨fun _ => hb, fun _ => rfl⟩
    · rw [if_neg hb]
      constructor
      · intro h; cases h
      · intro h; exact absurd h hb
  · intro U b h
    unfold TBox.make at h
    by_cases hb : T.size ≤ 16 ∧ T.align ≤ 16
    · rw [if_pos hb] at h
      obtain rfl : TBox.mk T.tyId = b := Option.some.inj h
      unfold TBox.is
      simp only [decide_eq_true_eq]
      exact eq_comm
    · rw [if_neg hb] at h; cases h

/-- Witness for C8 at a 16-byte, 8-byte-aligned type (the layout of every
leaf token, a `Range<usize>`) and a distinct second type. -/
theorem c8_tokenbox_budget_and_identity_witness :
    (TBox.make ⟨16, 8, 7⟩ = none ↔ 16 < 16 ∨ 16 < 8)
  ∧ (TBox.make ⟨16, 8, 7⟩ = some ⟨7⟩ ↔ 16 ≤ 16 ∧ 8 ≤ 16)
  ∧ (TBox.is ⟨7⟩ ⟨8, 8, 9⟩ = true ↔ 9 = 7) :=
  ⟨(c8_tokenbox_budget_and_identity ⟨16, 8, 7⟩).1,
   (c8_tokenbox_budget_and_identity ⟨16, 8, 7⟩).2.1,
   (c8_tokenbox_budget_and_identity ⟨16, 8, 7⟩).2.2 ⟨8, 8, 9⟩ ⟨7⟩ (by decide)⟩

/-- If the parse-and-cache path returns `Matched`, the new cell was pushed
onto the back of the buffer and carries the returned span. -/
theorem peekFresh_matched_buf (T : TokenKind) (l : Lexer) (sp : Nat × Nat) (l' : Lexer)
    (h : l.peekFresh T = (.matched sp, l')) : l'.buf = l.buf ++ [⟨T, sp⟩] := by
  unfold Lexer.peekFresh at h
  cases hp : T.parse l.index l.input with
  | none => rw [hp] at h; cases h
  | some r =>
    rw [hp] at h
    cases r with
    | error e => cases h
    | ok token =>
      dsimp only at h
      by_cases hc : l.buf.length = l.cap
      · rw [if_pos hc] at h; cases h
      · rw [if_neg hc] at h
        have h1 := congrArg Prod.fst h
        have h2 := congrArg Prod.snd h
        simp only at h1 h2
        injection h1 with hsp
        subst hsp
        rw [← h2]

/-- If `Lexer::peek` returns `Matched`, the back of the resulting buffer is a
cell of the requested kind carrying the returned span (either it was already
there, or `peekFresh` just pushed it). -/
theorem peek_matched_back (T : TokenKind) (l : Lexer) (sp : Nat × Nat) (l' : Lexer)
    (h : l.peek T = (.matched sp, l')) : l'.buf.getLast? = some ⟨T, sp⟩ := by
  unfold Lexer.peek at h
  cases hb : l.buf.getLast? with
  | none =>
    rw [hb] at h
    dsimp only at h
    rw [peekFresh_matched_buf T l sp l' h]
    exact List.getLast?_concat _
  | some b =>
    rw [hb] at h
    dsimp only at h
    by_cases ht : b.tid = T
    · rw [if_pos ht] at h
      have h1 := congrArg Prod.fst h
      have h2 := congrArg Prod.snd h
      simp only at h1 h2
      injection h1 with hsp
      subst h2
      rw [hb]
      obtain ⟨btid, bspan⟩ := b
      simp only at ht hsp
      rw [ht, hsp]
    · rw [if_neg ht] at h
      rw [peekFresh_matched_buf T l sp l' h]
      exact List.getLast?_concat _

/-- C5.  If a `peek::<T>()` call returns `Matched` with some span and leaves
the lexer in state `l'`, then a repeated `peek::<T>()` on `l'` returns the
identical cached span and leaves the state exactly `l'`: the second and
later calls hit the buffered cell, do not re-parse, and change neither the
cursor nor the buffer. -/
theorem c5_repeated_peek_cached (T : TokenKind) (l l' : Lexer) (sp : Nat × Nat)
    (h : l.peek T = (.matched sp, l')) : l'.peek T = (.matched sp, l') := by
  have hb := peek_matched_back T l sp l' h
  unfold Lexer.peek
  rw [hb]
  simp

/-- Witness for C5: peeking an identifier on `"a"` caches the token, and the
repeated peek returns the same span with the state unchanged. -/
theorem c5_repeated_peek_cached_witness :
    (Lexer.new 1 ['a']).peek .ident
        = (.matched (0, 1), ⟨[], 1, [⟨.ident, (0, 1)⟩], 1⟩)
  ∧ (Lexer.mk [] 1 [⟨.ident, (0, 1)⟩] 1).peek .ident
        = (.matched (0, 1), Lexer.mk [] 1 [⟨.ident, (0, 1)⟩] 1) :=
  ⟨by decide,
   c5_repeated_peek_cached .ident (Lexer.new 1 ['a'])
     (Lexer.mk [] 1 [⟨.ident, (0, 1)⟩] 1) (0, 1) (by decide)⟩

/-- C7.  If the buffer does not hold a matching entry at position `n` and the
buffer length is not exactly `n`, then `peek_n::<T>(n)` is a protocol
violation: the `assert_eq!(self.buf.len(), n)` fires (modelled by `fatal`),
and nothing is parsed out of order. -/
theorem c7_peekN_out_of_order_is_fatal (T : TokenKind) (n : Nat) (l : Lexer)
    (h1 : ∀ b, l.buf[n]? = some b → ¬(b.tid = T))
    (h2 : ¬(l.buf.length = n)) :
    l.peekN T n = (.fatal, l) := by
  unfold Lexer.peekN
  cases hg : l.buf[n]? with
  | none =>
    dsimp only
    rw [if_neg h2]
  | some b =>
    dsimp only
    rw [if_neg (h1 b hg), if_neg h2]

/-- Witness for C7: after one `peek::<Ident>()` on `"a +"`, requesting
`peek_n::<Plus>(0)` re-types the already-parsed front position (no matching
entry at 0, buffer length 1 ≠ 0) and panics. -/
theorem c7_peekN_out_of_order_is_fatal_witness :
    (∀ b, ([⟨.ident, (0, 1)⟩] : List Tok)[0]? = some b → ¬(b.tid = .plus))
  ∧ ¬(([⟨.ident, (0, 1)⟩] : List Tok).length = 0)
  ∧ (Lexer.mk ['+'] 2 [⟨.ident, (0, 1)⟩] 2).peekN .plus 0
      = (.fatal, Lexer.mk ['+'] 2 [⟨.ident, (0, 1)⟩] 2) :=
  ⟨fun b hb => by rw [← Option.some.inj hb]; decide,
   by decide,
   c7_peekN_out_of_order_is_fatal .plus 0 (Lexer.mk ['+'] 2 [⟨.ident, (0, 1)⟩] 2)
     (fun b hb => by rw [← Option.some.inj hb]; decide) (by decide)⟩

/-- On the two non-fatal failure outcomes, the parse-and-cache path leaves
the lexer untouched. -/
theorem peekFresh_quiet_state (T : TokenKind) (l : Lexer)
    (h : ((l.peekFresh T).1).quiet = true) : (l.peekFresh T).2 = l := by
  unfold Lexer.peekFresh at h ⊢
  cases hp : T.parse l.index l.input with
  | none => rfl
  | some r =>
    rw [hp] at h
    cases r with
    | error e => rfl
    | ok token =>
      dsimp only at h ⊢
      by_cases hc : l.buf.length = l.cap
      · rw [if_pos hc]
      · rw [if_neg hc] at h
        simp [LexResult.quiet] at h

/-- On the two non-fatal failure outcomes, the parse-and-consume path leaves
the lexer untouched. -/
theorem getFresh_quiet_state (T : TokenKind) (l : Lexer)
    (h : ((l.getFresh T).1).quiet = true) : (l.getFresh T).2 = l := by
  unfold Lexer.getFresh at h ⊢
  cases hp : T.parse l.index l.input with
  | none => rfl
  | some r =>
    rw [hp] at h
    cases r with
    | error e => rfl
    | ok val =>
      dsimp only at h
      simp [LexResult.quiet] at h

/-- C9.  Whenever `peek`, `peek_n` or `get` returns `None` (no match) or
`Some(Err)` (malformed), the lexer's observable state — cursor offset,
remaining-input view and lookahead buffer — is exactly what it was before
the call. -/
theorem c9_failure_leaves_state_unchanged (T : TokenKind) (n : Nat) (l : Lexer) :
    (((l.peek T).1).quiet = true → (l.peek T).2 = l)
  ∧ (((l.peekN T n).1).quiet = true → (l.peekN T n).2 = l)
  ∧ (((l.get T).1).quiet = true → (l.get T).2 = l) := by
  refine ⟨?_, ?_, ?_⟩
  · intro h
    unfold Lexer.peek at h ⊢
    cases hb : l.buf.getLast? with
    | none =>
      rw [hb] at h
      dsimp only at h ⊢
      exact peekFresh_quiet_state T l h
    | some b =>
      rw [hb] at h
      dsimp only at h ⊢
      by_cases ht : b.tid = T
      · rw [if_pos ht] at h; simp [LexResult.quiet] at h
      · rw [if_neg ht] at h ⊢; exact peekFresh_quiet_state T l h
  · intro h
    unfold Lexer.peekN at h ⊢
    cases hb : l.buf[n]? with
    | none =>
      rw [hb] at h
      dsimp only at h ⊢
      by_cases hl : l.buf.length = n
      · rw [if_pos hl] at h ⊢; exact peekFresh_quiet_state T l h
      · rw [if_neg hl] at h; simp [LexResult.quiet] at h
    | some b =>
      rw [hb] at h
      dsimp only at h ⊢
      by_cases ht : b.tid = T
      · rw [if_pos ht] at h; simp [LexResult.quiet] at h
      · rw [if_neg ht] at h ⊢
        by_cases hl : l.buf.length = n
        · rw [if_pos hl] at h ⊢; exact peekFresh_quiet_state T l h
        · rw [if_neg hl] at h; simp [LexResult.quiet] at h
  · intro h
    unfold Lexer.get at h ⊢
    cases hb : l.buf.getLast? with
    | none =>
      rw [hb] at h
      dsimp only at h ⊢
      exact getFresh_quiet_state T l h
    | some b =>
      rw [hb] at h
      dsimp only at h ⊢
      by_cases ht : b.tid = T
      · rw [if_pos ht] at h ⊢
        cases hbuf : l.buf with
        | nil => rfl
        | cons f restb =>
          rw [hbuf] at h
          dsimp only at h
          simp [LexResult.quiet] at h
      · rw [if_neg ht] at h ⊢; exact getFresh_quiet_state T l h

/-- Witness for C9 on input `"?"`, where `Plus` does not match: all three
operations report no match and leave the fresh lexer unchanged. -/
theorem c9_failure_leaves_state_unchanged_witness :
    ((Lexer.new 1 ['?']).peek .plus).2 = Lexer.new 1 ['?']
  ∧ ((Lexer.new 1 ['?']).peekN .plus 0).2 = Lexer.new 1 ['?']
  ∧ ((Lexer.new 1 ['?']).get .plus).2 = Lexer.new 1 ['?'] :=
  ⟨(c9_failure_leaves_state_unchanged .plus 0 (Lexer.new 1 ['?'])).1 (by decide),
   (c9_failure_leaves_state_unchanged .plus 0 (Lexer.new 1 ['?'])).2.1 (by decide),
   (c9_failure_leaves_state_unchanged .plus 0 (Lexer.new 1 ['?'])).2.2 (by decide)⟩

/-- Stripping a literal that starts with `d` from an input that starts with a
different character fails. -/
theorem stripLit_head_ne {c d : Char} (pd rest : List Char) (hne : ¬(c = d)) :
    stripLit (d :: pd) (c :: rest) = none := by
  have h : ¬((c :: rest).take (d :: pd).length = d :: pd) := by
    rw [List.length_cons, List.take_succ_cons]
    intro h
    injection h with h1 _
    exact hne h1
  unfold stripLit
  rw [if_neg h]

/-- A whitespace character is not alphabetic. -/
theorem ws_not_alpha {c : Char} (hc : c.isWhitespace = true) : ¬(c.isAlpha = true) := by
  have h4 : ((c = ' ' ∨ c = '\t') ∨ c = '\r') ∨ c = '\n' := by
    simpa [Char.isWhitespace] using hc
  rcases h4 with ((h | h) | h) | h <;> subst h <;> decide

/-- A whitespace character is not a decimal digit. -/
theorem ws_not_digit {c : Char} (hc : c.isWhitespace = true) : ¬(c.isDigit = true) := by
  have h4 : ((c = ' ' ∨ c = '\t') ∨ c = '\r') ∨ c = '\n' := by
    simpa [Char.isWhitespace] using hc
  rcases h4 with ((h | h) | h) | h <;> subst h <;> decide

/-- A whitespace character differs from every non-whitespace character. -/
theorem ws_ne {c : Char} (hc : c.isWhitespace = true) (d : Char)
    (hd : d.isWhitespace = false) : ¬(c = d) := by
  intro h
  subst h
  rw [hc] at hd
  cases hd

/-- No leaf token kind matches an input that begins with a whitespace
character: every `simple_token!` pattern starts with a non-whitespace
character, `Ident::parse` requires an alphabetic first character, and
`Number::parse` requires a decimal digit. -/
theorem parse_ws_none (k : TokenKind) (s : Nat) (c : Char) (rest : List Char)
    (hc : c.isWhitespace = true) : k.parse s (c :: rest) = none := by
  cases k <;> simp only [TokenKind.parse] <;>
    first
      | (unfold simpleParse
         rw [stripLit_head_ne _ _ (ws_ne hc _ (by decide))])
      | (unfold identParse
         dsimp only
         rw [if_neg (ws_not_alpha hc)])
      | (unfold numberParse
         dsimp only
         rw [if_neg (ws_ne hc '0' (by decide)), if_neg (ws_not_digit hc)])

/-- C10.  A freshly constructed lexer does not skip leading whitespace: on
every input beginning with a whitespace character, the first `peek` or `get`
of any provided leaf token kind returns `None`, because trimming happens
only after a successful parse and no leaf kind matches leading whitespace. -/
theorem c10_fresh_lexer_no_leading_trim (k : TokenKind) (cap : Nat) (c : Char)
    (rest : List Char) (hc : c.isWhitespace = true) :
    ((Lexer.new cap (c :: rest)).peek k).1 = .noMatch
  ∧ ((Lexer.new cap (c :: rest)).get k).1 = .noMatch := by
  have hparse : k.parse 0 (c :: rest) = none := parse_ws_none k 0 c rest hc
  constructor
  · show ((Lexer.new cap (c :: rest)).peekFresh k).1 = .noMatch
    unfold Lexer.peekFresh
    rw [show (Lexer.new cap (c :: rest)).index = 0 from rfl,
        show (Lexer.new cap (c :: rest)).input = c :: rest from rfl, hparse]
  · show ((Lexer.new cap (c :: rest)).getFresh k).1 = .noMatch
    unfold Lexer.getFresh
    rw [show (Lexer.new cap (c :: rest)).index = 0 from rfl,
        show (Lexer.new cap (c :: rest)).input = c :: rest from rfl, hparse]

/-- Witness for C10 on input `" a"` with the identifier kind. -/
theorem c10_fresh_lexer_no_leading_trim_witness :
    (' ').isWhitespace = true
  ∧ ((Lexer.new 1 [' ', 'a']).peek .ident).1 = .noMatch
  ∧ ((Lexer.new 1 [' ', 'a']).get .ident).1 = .noMatch :=
  ⟨by decide,
   (c10_fresh_lexer_no_leading_trim .ident 1 ' ' ['a'] (by decide)).1,
   (c10_fresh_lexer_no_leading_trim .ident 1 ' ' ['a'] (by decide)).2⟩

end Rave
